import Mathlib

/-!
Verification of the DXF 3DFACE parser and mesh data model.

The development embeds, over exact rationals, the geometric primitives
(`Point3D`, `Triangle`, `BoundingBox`) of MeshData.h and the line-based
DXF scanning algorithm of DXFReader.cpp: `parse3DFaceFromLines` (the face
parsing subroutine, embedded as the fuel-indexed loop `faceLoopF` with the
per-pair action `applyPair`) and `parseFile`'s scan loop (embedded as
`scanStep` / `scanLoopF` / `parseFileModel`).  Doubles are modelled as
rationals; `std::stoi` and `std::stod` are modelled by executable partial
parsers `stoi` and `stod` returning `Option`.
-/

namespace DXF

/-- Largest finite double, `std::numeric_limits<double>::max()`,
i.e. (2^53 - 1) * 2^971; `lowest()` is its negation.  (Written as an
integer fraction so the kernel can evaluate comparisons against it.) -/
def doubleMax : ℚ := Rat.divInt (((2 ^ 53 - 1) * 2 ^ 971 : ℕ) : ℤ) 1

/-- Rational addition, implemented on raw numerators/denominators so the
kernel can evaluate it; provably equal to `+` (`qAdd_eq`). -/
def qAdd (a b : ℚ) : ℚ :=
  Rat.divInt (a.num * (b.den : ℤ) + b.num * (a.den : ℤ)) ((a.den : ℤ) * (b.den : ℤ))

/-- Rational multiplication, kernel-evaluable; provably `*` (`qMul_eq`). -/
def qMul (a b : ℚ) : ℚ :=
  Rat.divInt (a.num * b.num) ((a.den : ℤ) * (b.den : ℤ))

/-- Rational division, kernel-evaluable; provably `/` (`qDiv_eq`). -/
def qDiv (a b : ℚ) : ℚ :=
  Rat.divInt (a.num * (b.den : ℤ)) ((a.den : ℤ) * b.num)

/-- `10 ^ n` as a rational, kernel-evaluable (`pow10_eq`). -/
def pow10 (n : Nat) : ℚ := Rat.divInt ((10 : ℤ) ^ n) 1

/-- `10 ^ e` for an integer exponent, kernel-evaluable (`zpow10_eq`). -/
def zpow10 (e : Int) : ℚ :=
  if 0 ≤ e then pow10 e.toNat else Rat.divInt 1 ((10 : ℤ) ^ (-e).toNat)

/-- 3D point with (exact-rational-modelled) double coordinates,
from `struct Point3D` in MeshData.h. -/
structure Point3D where
  x : ℚ
  y : ℚ
  z : ℚ
deriving DecidableEq, Repr

/-- `Point3D()` default constructor: the origin. -/
def Point3D.zero : Point3D := ⟨0, 0, 0⟩

/-- `Point3D::operator+`. -/
def Point3D.add (a b : Point3D) : Point3D := ⟨a.x + b.x, a.y + b.y, a.z + b.z⟩

/-- `Point3D::operator-`. -/
def Point3D.sub (a b : Point3D) : Point3D := ⟨a.x - b.x, a.y - b.y, a.z - b.z⟩

/-- `Point3D::operator*` (scalar multiplication). -/
def Point3D.smul (a : Point3D) (s : ℚ) : Point3D := ⟨a.x * s, a.y * s, a.z * s⟩

/-- `Point3D::operator==`: componentwise equality within tolerance 1e-9. -/
def Point3D.eqEps (a b : Point3D) : Bool :=
  |a.x - b.x| < (1e-9 : ℚ) && |a.y - b.y| < (1e-9 : ℚ) && |a.z - b.z| < (1e-9 : ℚ)

/-- `Point3D::dot`. -/
def Point3D.dot (a b : Point3D) : ℚ := a.x * b.x + a.y * b.y + a.z * b.z

/-- `Point3D::cross`. -/
def Point3D.cross (a b : Point3D) : Point3D :=
  ⟨a.y * b.z - a.z * b.y, a.z * b.x - a.x * b.z, a.x * b.y - a.y * b.x⟩

/-- `Point3D::magnitude`: `sqrt(x*x + y*y + z*z)`, valued in ℝ. -/
noncomputable def Point3D.magnitude (a : Point3D) : ℝ :=
  Real.sqrt ((a.x * a.x + a.y * a.y + a.z * a.z : ℚ) : ℝ)

/-- `struct Triangle`: three vertices, in order. -/
structure Triangle where
  v0 : Point3D
  v1 : Point3D
  v2 : Point3D
deriving DecidableEq, Repr

/-- `struct BoundingBox`: componentwise min and max extents. -/
structure BoundingBox where
  min : Point3D
  max : Point3D
deriving DecidableEq, Repr

/-- `BoundingBox()` default constructor: min components at
`numeric_limits<double>::max()`, max components at `lowest()`. -/
def mkBoundingBox : BoundingBox :=
  ⟨⟨doubleMax, doubleMax, doubleMax⟩, ⟨-doubleMax, -doubleMax, -doubleMax⟩⟩

/-- `BoundingBox::expand`: pull min/max componentwise toward the point. -/
def BoundingBox.expand (b : BoundingBox) (p : Point3D) : BoundingBox :=
  ⟨⟨Min.min b.min.x p.x, Min.min b.min.y p.y, Min.min b.min.z p.z⟩,
   ⟨Max.max b.max.x p.x, Max.max b.max.y p.y, Max.max b.max.z p.z⟩⟩

/-- `BoundingBox::isEmpty`: some min component exceeds the max one. -/
def BoundingBox.isEmpty (b : BoundingBox) : Bool :=
  b.min.x > b.max.x || b.min.y > b.max.y || b.min.z > b.max.z

/-! ### Numeric string parsing: models of `std::stoi` and `std::stod` -/

/-- C `isspace` characters skipped by `strtol` / `strtod`. -/
def isSpaceC (c : Char) : Bool :=
  c = ' ' || c = '\t' || c = '\n' || c = '\x0b' || c = '\x0c' || c = '\r'

/-- Accumulate a decimal digit string into a natural number. -/
def digitsNat (cs : List Char) : Nat :=
  cs.foldl (fun a c => a * 10 + (c.toNat - 48)) 0

/-- Model of `std::stoi`: skip leading whitespace, optional sign, then a
nonempty run of decimal digits (further characters are ignored, as `stoi`
parses the longest valid prefix).  Returns `none` when no digits are found
(`invalid_argument`) or the value exceeds `int` range (`out_of_range`). -/
def stoi (s : String) : Option Int :=
  let cs := s.toList.dropWhile isSpaceC
  let signed : Int × List Char :=
    match cs with
    | '-' :: rest => (-1, rest)
    | '+' :: rest => (1, rest)
    | _ => (1, cs)
  let ds := signed.2.takeWhile Char.isDigit
  if ds.isEmpty then none
  else
    let n : Int := signed.1 * (digitsNat ds : Int)
    if n < -(2 ^ 31) || 2 ^ 31 ≤ n then none else some n

/-- Unsigned part of `stod`: digits, optional fraction, optional decimal
exponent; at least one digit must appear in the integer or fraction part.
A malformed exponent part is ignored (the longest valid prefix wins). -/
def stodUnsigned (cs : List Char) : Option ℚ :=
  let intPart := cs.takeWhile Char.isDigit
  let rest := cs.dropWhile Char.isDigit
  let frac : List Char × List Char :=
    match rest with
    | '.' :: r => (r.takeWhile Char.isDigit, r.dropWhile Char.isDigit)
    | _ => ([], rest)
  if intPart.isEmpty && frac.1.isEmpty then none
  else
    let mantissa : ℚ :=
      qAdd (digitsNat intPart : ℚ) (qDiv (digitsNat frac.1 : ℚ) (pow10 frac.1.length))
    let expVal : Int :=
      match frac.2 with
      | e :: r =>
        if e = 'e' || e = 'E' then
          match r with
          | '-' :: d =>
            let ds := d.takeWhile Char.isDigit
            if ds.isEmpty then 0 else -(digitsNat ds : Int)
          | '+' :: d =>
            let ds := d.takeWhile Char.isDigit
            if ds.isEmpty then 0 else (digitsNat ds : Int)
          | d =>
            let ds := d.takeWhile Char.isDigit
            if ds.isEmpty then 0 else (digitsNat ds : Int)
        else 0
      | [] => 0
    some (qMul mantissa (zpow10 expVal))

/-- Model of `std::stod` on decimal input: skip leading whitespace,
optional sign, then an unsigned decimal number.  (Hexadecimal, infinity
and NaN forms, and double-range overflow, are outside the DXF subset and
not modelled.) -/
def stod (s : String) : Option ℚ :=
  let cs := s.toList.dropWhile isSpaceC
  match cs with
  | '-' :: rest => (stodUnsigned rest).map (fun q => -q)
  | '+' :: rest => stodUnsigned rest
  | _ => stodUnsigned cs

/-! ### The face-parsing subroutine `DXFReader::parse3DFaceFromLines` -/

/-- Local state of `parse3DFaceFromLines`: the 3-vertex buffer
`Point3D vertices[3]` and the flags `bool hasVertex[3]`. -/
structure FaceState where
  v0 : Point3D
  v1 : Point3D
  v2 : Point3D
  has0 : Bool
  has1 : Bool
  has2 : Bool
deriving DecidableEq, Repr

/-- Initial face state: zeroed vertices, no vertex populated. -/
def initFace : FaceState :=
  ⟨Point3D.zero, Point3D.zero, Point3D.zero, false, false, false⟩

/-- Write the x coordinate of vertex `vi`; `ok` is true exactly on a
successful `stod`, in which case `hasVertex[vi]` is set. -/
def FaceState.putX (st : FaceState) (vi : Int) (v : ℚ) (ok : Bool) : FaceState :=
  if vi = 0 then { st with v0 := { st.v0 with x := v }, has0 := ok || st.has0 }
  else if vi = 1 then { st with v1 := { st.v1 with x := v }, has1 := ok || st.has1 }
  else if vi = 2 then { st with v2 := { st.v2 with x := v }, has2 := ok || st.has2 }
  else st

/-- Write the y coordinate of vertex `vi` (no flag is touched). -/
def FaceState.putY (st : FaceState) (vi : Int) (v : ℚ) : FaceState :=
  if vi = 0 then { st with v0 := { st.v0 with y := v } }
  else if vi = 1 then { st with v1 := { st.v1 with y := v } }
  else if vi = 2 then { st with v2 := { st.v2 with y := v } }
  else st

/-- Write the z coordinate of vertex `vi` (no flag is touched). -/
def FaceState.putZ (st : FaceState) (vi : Int) (v : ℚ) : FaceState :=
  if vi = 0 then { st with v0 := { st.v0 with z := v } }
  else if vi = 1 then { st with v1 := { st.v1 with z := v } }
  else if vi = 2 then { st with v2 := { st.v2 with z := v } }
  else st

/-- The `switch (code)` body of `parse3DFaceFromLines`: codes 10/11/12
assign x (and mark the vertex populated on `stod` success, defaulting the
coordinate to 0.0 on failure), 20/21/22 assign y, 30/31/32 assign z; any
other code (13/23/33 included) leaves the buffer untouched. -/
def applyPair (st : FaceState) (code : Int) (value : String) : FaceState :=
  if code = 10 ∨ code = 11 ∨ code = 12 then
    match stod value with
    | some v => st.putX (code - 10) v true
    | none => st.putX (code - 10) 0 false
  else if code = 20 ∨ code = 21 ∨ code = 22 then
    match stod value with
    | some v => st.putY (code - 20) v
    | none => st.putY (code - 20) 0
  else if code = 30 ∨ code = 31 ∨ code = 32 then
    match stod value with
    | some v => st.putZ (code - 30) v
    | none => st.putZ (code - 30) 0
  else st

/-- The `while (index < lines.size())` loop of `parse3DFaceFromLines`,
fuel-indexed (any fuel above `lines.length` is sufficient).  Stops without
consuming on a `"0"` line; on an integer group code consumes the code and
value lines (breaking first when no value line exists); on a non-integer
line advances by a single line.  Returns the final index and state. -/
def faceLoopF : Nat → List String → FaceState → Nat → Nat × FaceState
  | 0, _, st, i => (i, st)
  | fuel + 1, lines, st, i =>
    if i < lines.length then
      if lines.getD i "" = "0" then (i, st)
      else
        match stoi (lines.getD i "") with
        | none => faceLoopF fuel lines st (i + 1)
        | some code =>
          if i + 1 < lines.length then
            faceLoopF fuel lines (applyPair st code (lines.getD (i + 1) "")) (i + 2)
          else (i, st)
    else (i, st)

/-- `DXFReader::parse3DFaceFromLines`: scan code/value pairs from `index`,
then produce a triangle from the buffered vertices 0,1,2 exactly when all
three are populated.  Returns the parse outcome and the updated index. -/
def parse3DFaceFromLines (lines : List String) (index : Nat) : Option Triangle × Nat :=
  let r := faceLoopF (lines.length + 1) lines initFace index
  if r.2.has0 && r.2.has1 && r.2.has2 then
    (some ⟨r.2.v0, r.2.v1, r.2.v2⟩, r.1)
  else (none, r.1)

/-! ### The scan loop of `DXFReader::parseFile` -/

/-- `reportProgress` clamps its argument to [0, 1]. -/
def clampQ (p : ℚ) : ℚ := Max.max 0 (Min.min 1 p)

/-- State threaded through `parseFile`'s scan loop: the section flag, the
mesh triangles in insertion order, `lastEntityCount_`, and the sequence of
values passed to the progress callback so far. -/
structure ScanState where
  inEntities : Bool
  mesh : List Triangle
  count : Nat
  progress : List ℚ
deriving DecidableEq, Repr

/-- Scan state at the start of `parseFile`: outside any section, empty
mesh, `lastEntityCount_ = 0`, no progress reported. -/
def initScan : ScanState := ⟨false, [], 0, []⟩

/-- One iteration of `parseFile`'s `while (i < lines.size())` loop:
recognize the `0`/`SECTION`/`2`/`ENTITIES` quadruple, `0`/`ENDSEC`, or an
in-section `0`/`3DFACE` (parsing it, appending the triangle and bumping
the counter on success, and reporting clamped `nextEntityIndex / size`
every 100th entity when the file size is nonzero); otherwise advance by
one line.  Returns the new state and cursor. -/
def scanStep (lines : List String) (fileSizePos : Bool) (st : ScanState) (i : Nat) :
    ScanState × Nat :=
  if lines.getD i "" = "0" ∧ i + 1 < lines.length then
    let entityType := lines.getD (i + 1) ""
    if entityType = "SECTION" ∧ i + 3 < lines.length then
      if lines.getD (i + 2) "" = "2" ∧ lines.getD (i + 3) "" = "ENTITIES" then
        ({ st with inEntities := true }, i + 4)
      else (st, i + 1)
    else if entityType = "ENDSEC" then
      ({ st with inEntities := false }, i + 2)
    else if st.inEntities = true ∧ entityType = "3DFACE" then
      match parse3DFaceFromLines lines (i + 2) with
      | (some tri, ni) =>
        let st1 : ScanState :=
          { st with mesh := st.mesh ++ [tri], count := st.count + 1 }
        if st1.count % 100 = 0 ∧ fileSizePos then
          ({ st1 with
             progress := st1.progress ++ [clampQ (qDiv (ni : ℚ) (lines.length : ℚ))] }, ni)
        else (st1, ni)
      | (none, ni) => (st, ni)
    else (st, i + 1)
  else (st, i + 1)

/-- `parseFile`'s scan loop, fuel-indexed (any fuel above `lines.length`
is sufficient since the cursor strictly increases). -/
def scanLoopF : Nat → List String → Bool → ScanState → Nat → ScanState
  | 0, _, _, st, _ => st
  | fuel + 1, lines, fileSizePos, st, i =>
    if i < lines.length then
      let r := scanStep lines fileSizePos st i
      scanLoopF fuel lines fileSizePos r.1 r.2
    else st

/-- Error kind relevant to the scan phase: the
`"No 3D faces found in DXF file"` exception of `parseFile`. -/
inductive DXFError where
  | NoEntitiesFound
deriving DecidableEq, Repr

/-- Result of `parseFile`: the mesh triangles and final
`lastEntityCount_`, or a thrown error kind. -/
inductive ParseResult where
  | ok : List Triangle → Nat → ParseResult
  | error : DXFError → ParseResult
deriving DecidableEq, Repr

/-- Outcome of `parseFile` from the materialized line array onward: the
result and the full sequence of values passed to the progress callback. -/
structure ParseOutcome where
  result : ParseResult
  progress : List ℚ
deriving DecidableEq, Repr

/-- `DXFReader::parseFile` after the lines are materialized and trimmed:
run the scan loop from the initial state, always report exactly 1.0 last,
and fail with `NoEntitiesFound` when the mesh is empty. -/
def parseFileModel (lines : List String) (fileSizePos : Bool) : ParseOutcome :=
  let st := scanLoopF (lines.length + 1) lines fileSizePos initScan 0
  let prog := st.progress ++ [clampQ 1]
  if st.mesh.isEmpty then ⟨ParseResult.error DXFError.NoEntitiesFound, prog⟩
  else ⟨ParseResult.ok st.mesh st.count, prog⟩

/-- The `SECTION`/`2`/`ENTITIES` quadruple recognized at cursor `i`, the
exact condition under which `parseFile` sets the section flag. -/
def isEntitiesQuad (lines : List String) (i : Nat) : Prop :=
  lines.getD i "" = "0" ∧ i + 1 < lines.length ∧
  lines.getD (i + 1) "" = "SECTION" ∧ i + 3 < lines.length ∧
  lines.getD (i + 2) "" = "2" ∧ lines.getD (i + 3) "" = "ENTITIES"

instance (lines : List String) (i : Nat) : Decidable (isEntitiesQuad lines i) := by
  unfold isEntitiesQuad
  exact inferInstance

/-- The `0`/`ENDSEC` pair recognized at cursor `i`, the exact condition
under which `parseFile` clears the section flag. -/
def isEndsecAt (lines : List String) (i : Nat) : Prop :=
  lines.getD i "" = "0" ∧ i + 1 < lines.length ∧ lines.getD (i + 1) "" = "ENDSEC"

instance (lines : List String) (i : Nat) : Decidable (isEndsecAt lines i) := by
  unfold isEndsecAt
  exact inferInstance

/-! ### Sample line arrays used by concrete witnesses -/

/-- A well-formed file with two valid 3DFACE entities in an ENTITIES
section. -/
def sampleTwoFace : List String :=
  ["0", "SECTION", "2", "ENTITIES",
   "0", "3DFACE", "10", "0", "20", "0", "30", "0",
   "11", "1", "21", "0", "31", "0", "12", "0", "22", "1", "32", "0",
   "0", "3DFACE", "10", "2", "20", "0", "30", "0",
   "11", "3", "21", "0", "31", "0", "12", "2", "22", "1", "32", "0",
   "0", "ENDSEC"]

/-- The two triangles parsed from `sampleTwoFace`. -/
def sampleTwoMesh : List Triangle :=
  [⟨⟨0, 0, 0⟩, ⟨1, 0, 0⟩, ⟨0, 1, 0⟩⟩, ⟨⟨2, 0, 0⟩, ⟨3, 0, 0⟩, ⟨2, 1, 0⟩⟩]

/-- A 3DFACE entity body missing vertices 1 and 2. -/
def sampleBadFace : List String := ["0", "3DFACE", "10", "1.0", "0", "EOF"]

/-! ## Claim theorems -/

/-- `qAdd` is rational addition. -/
lemma qAdd_eq (a b : ℚ) : qAdd a b = a + b := by
  rw [qAdd]
  conv_rhs => rw [← Rat.num_divInt_den a, ← Rat.num_divInt_den b]
  rw [Rat.divInt_add_divInt _ _ (by exact_mod_cast a.den_nz) (by exact_mod_cast b.den_nz)]

/-- `qMul` is rational multiplication. -/
lemma qMul_eq (a b : ℚ) : qMul a b = a * b := by
  rw [qMul]
  conv_rhs => rw [← Rat.num_divInt_den a, ← Rat.num_divInt_den b]
  rw [Rat.divInt_mul_divInt']

/-- `qDiv` is rational division. -/
lemma qDiv_eq (a b : ℚ) : qDiv a b = a / b := by
  rw [qDiv]
  conv_rhs => rw [← Rat.num_divInt_den a, ← Rat.num_divInt_den b]
  rw [Rat.divInt_div_divInt]

/-- `pow10` is the rational power of ten. -/
lemma pow10_eq (n : Nat) : pow10 n = (10 : ℚ) ^ n := by
  rw [pow10, Rat.divInt_eq_div]
  push_cast
  ring

set_option maxRecDepth 8192 in
/-- A small concrete lower bound on the largest finite double. -/
lemma five_le_doubleMax : (5 : ℚ) ≤ doubleMax := by decide

/-- `zpow10` is the rational integer power of ten. -/
lemma zpow10_eq (e : Int) : zpow10 e = (10 : ℚ) ^ e := by
  rw [zpow10]
  split_ifs with h
  · rw [pow10_eq, ← zpow_natCast, Int.toNat_of_nonneg h]
  · push_neg at h
    rw [Rat.divInt_eq_div]
    push_cast
    rw [one_div, ← zpow_natCast, Int.toNat_of_nonneg (by omega : (0:ℤ) ≤ -e), ← zpow_neg,
      neg_neg]

/-- **C10.** The cross product is anti-commutative, `A.cross(B)` equals
`B.cross(A)` scaled by -1 (both exactly and under the source's
epsilon-tolerant `operator==`), and the dot product of a vector with
itself equals the square of its magnitude. -/
theorem c10_cross_anticomm_dot_magnitude (a b : Point3D) :
    a.cross b = (b.cross a).smul (-1) ∧
    Point3D.eqEps (a.cross b) ((b.cross a).smul (-1)) = true ∧
    ((a.dot a : ℚ) : ℝ) = a.magnitude ^ 2 := by
  have hcross : a.cross b = (b.cross a).smul (-1) := by
    simp only [Point3D.cross, Point3D.smul, Point3D.mk.injEq]
    refine ⟨by ring, by ring, by ring⟩
  have heps : ∀ p : Point3D, Point3D.eqEps p p = true := by
    intro p
    simp only [Point3D.eqEps, sub_self, abs_zero, Bool.and_eq_true, decide_eq_true_eq]
    norm_num
  refine ⟨hcross, by rw [hcross]; exact heps _, ?_⟩
  have h0 : (0 : ℝ) ≤ ((a.x * a.x + a.y * a.y + a.z * a.z : ℚ) : ℝ) := by
    push_cast
    exact add_nonneg (add_nonneg (mul_self_nonneg _) (mul_self_nonneg _))
      (mul_self_nonneg _)
  simp only [Point3D.magnitude, Point3D.dot]
  rw [Real.sq_sqrt h0]

set_option maxRecDepth 8192 in
/-- **C9.** A default-constructed `BoundingBox` is empty; expanding it
with one finite point `P` gives `min = max = P` and `isEmpty = false`;
every expansion pulls min down and max up componentwise toward the added
point. -/
theorem c9_boundingbox_empty_expand (p : Point3D) (b : BoundingBox)
    (hx : |p.x| ≤ doubleMax) (hy : |p.y| ≤ doubleMax) (hz : |p.z| ≤ doubleMax) :
    mkBoundingBox.isEmpty = true ∧
    (mkBoundingBox.expand p).min = p ∧ (mkBoundingBox.expand p).max = p ∧
    (mkBoundingBox.expand p).isEmpty = false ∧
    ((b.expand p).min.x = Min.min b.min.x p.x ∧
      (b.expand p).min.y = Min.min b.min.y p.y ∧
      (b.expand p).min.z = Min.min b.min.z p.z ∧
      (b.expand p).max.x = Max.max b.max.x p.x ∧
      (b.expand p).max.y = Max.max b.max.y p.y ∧
      (b.expand p).max.z = Max.max b.max.z p.z) ∧
    ((b.expand p).min.x ≤ b.min.x ∧ (b.expand p).min.y ≤ b.min.y ∧
      (b.expand p).min.z ≤ b.min.z ∧ (b.expand p).min.x ≤ p.x ∧
      (b.expand p).min.y ≤ p.y ∧ (b.expand p).min.z ≤ p.z ∧
      b.max.x ≤ (b.expand p).max.x ∧ b.max.y ≤ (b.expand p).max.y ∧
      b.max.z ≤ (b.expand p).max.z ∧ p.x ≤ (b.expand p).max.x ∧
      p.y ≤ (b.expand p).max.y ∧ p.z ≤ (b.expand p).max.z) := by
  have hdm : (0 : ℚ) < doubleMax := lt_of_lt_of_le (by norm_num) five_le_doubleMax
  have hempty : mkBoundingBox.isEmpty = true := by
    simp only [mkBoundingBox, BoundingBox.isEmpty, Bool.or_eq_true, decide_eq_true_eq,
      gt_iff_lt]
    have h := neg_lt_self hdm
    tauto
  have hmin : (mkBoundingBox.expand p).min = p := by
    simp only [mkBoundingBox, BoundingBox.expand]
    have h1 : Min.min doubleMax p.x = p.x := min_eq_right (abs_le.mp hx).2
    have h2 : Min.min doubleMax p.y = p.y := min_eq_right (abs_le.mp hy).2
    have h3 : Min.min doubleMax p.z = p.z := min_eq_right (abs_le.mp hz).2
    rw [h1, h2, h3]
  have hmax : (mkBoundingBox.expand p).max = p := by
    simp only [mkBoundingBox, BoundingBox.expand]
    have h1 : Max.max (-doubleMax) p.x = p.x := max_eq_right (abs_le.mp hx).1
    have h2 : Max.max (-doubleMax) p.y = p.y := max_eq_right (abs_le.mp hy).1
    have h3 : Max.max (-doubleMax) p.z = p.z := max_eq_right (abs_le.mp hz).1
    rw [h1, h2, h3]
  have hnotempty : (mkBoundingBox.expand p).isEmpty = false := by
    simp only [BoundingBox.isEmpty, hmin, hmax]
    simp [lt_irrefl]
  refine ⟨hempty, hmin, hmax, hnotempty, ⟨rfl, rfl, rfl, rfl, rfl, rfl⟩,
    min_le_left _ _, min_le_left _ _, min_le_left _ _,
    min_le_right _ _, min_le_right _ _, min_le_right _ _,
    le_max_left _ _, le_max_left _ _, le_max_left _ _,
    le_max_right _ _, le_max_right _ _, le_max_right _ _⟩

/-- Witness for C9: a concrete finite point. -/
theorem c9_witness :
    (mkBoundingBox.expand ⟨3, -4, 5⟩).min = ⟨3, -4, 5⟩ ∧
    (mkBoundingBox.expand ⟨3, -4, 5⟩).max = ⟨3, -4, 5⟩ ∧
    (mkBoundingBox.expand ⟨3, -4, 5⟩).isEmpty = false := by
  have h := c9_boundingbox_empty_expand ⟨3, -4, 5⟩ mkBoundingBox
    (le_trans (by decide) five_le_doubleMax)
    (le_trans (by decide) five_le_doubleMax)
    (le_trans (by decide) five_le_doubleMax)
  exact ⟨h.2.1, h.2.2.1, h.2.2.2.1⟩

/-- **C3.** A scan ending with zero triangles makes the read fail with
`NoEntitiesFound`; a successful result never carries an empty mesh. -/
theorem c3_empty_mesh_errors (lines : List String) (fsp : Bool) :
    ((parseFileModel lines fsp).result = ParseResult.error DXFError.NoEntitiesFound ↔
      (scanLoopF (lines.length + 1) lines fsp initScan 0).mesh = []) ∧
    (∀ m c, (parseFileModel lines fsp).result = ParseResult.ok m c → m ≠ []) := by
  by_cases h : (scanLoopF (lines.length + 1) lines fsp initScan 0).mesh = []
  · constructor
    · simp [parseFileModel, List.isEmpty_iff, h]
    · intro m c hmc
      simp [parseFileModel, List.isEmpty_iff, h] at hmc
  · constructor
    · simp [parseFileModel, List.isEmpty_iff, h]
    · intro m c hmc
      simp only [parseFileModel, List.isEmpty_iff] at hmc
      rw [if_neg h] at hmc
      simp only [ParseResult.ok.injEq] at hmc
      rw [← hmc.1]
      exact h

/-- Witness for C3: the empty file fails with `NoEntitiesFound`. -/
theorem c3_witness :
    (parseFileModel [] false).result = ParseResult.error DXFError.NoEntitiesFound :=
  (c3_empty_mesh_errors [] false).1.mpr (by decide)

/-- Each scan-loop iteration either leaves the mesh and entity counter
unchanged or appends exactly one triangle and increments the counter by
one. -/
lemma scanStep_mesh_count (lines : List String) (fsp : Bool) (st : ScanState) (i : Nat) :
    ((scanStep lines fsp st i).1.count = st.count ∧
      (scanStep lines fsp st i).1.mesh = st.mesh) ∨
    (∃ t, (scanStep lines fsp st i).1.count = st.count + 1 ∧
      (scanStep lines fsp st i).1.mesh = st.mesh ++ [t]) := by
  rcases hp : parse3DFaceFromLines lines (i + 2) with ⟨ot, ni⟩
  rcases ot with _ | tri <;>
    simp only [scanStep, hp] <;>
    split_ifs <;>
    first
      | exact Or.inl ⟨rfl, rfl⟩
      | exact Or.inr ⟨tri, rfl, rfl⟩

/-- The counter equals the mesh length throughout the scan loop. -/
lemma scanLoopF_count_inv (lines : List String) (fsp : Bool) :
    ∀ fuel (st : ScanState) (i : Nat), st.count = st.mesh.length →
      (scanLoopF fuel lines fsp st i).count =
        (scanLoopF fuel lines fsp st i).mesh.length := by
  intro fuel
  induction fuel with
  | zero => intro st i h; simpa [scanLoopF] using h
  | succ n ih =>
    intro st i h
    by_cases hi : i < lines.length
    · simp only [scanLoopF, if_pos hi]
      apply ih
      rcases scanStep_mesh_count lines fsp st i with ⟨hc, hm⟩ | ⟨t, hc, hm⟩
      · rw [hc, hm]; exact h
      · rw [hc, hm]; simp [h]
    · simpa [scanLoopF, if_neg hi] using h

/-- **C8.** The entity counter starts at zero, moves in lockstep with the
mesh (incremented exactly once per appended triangle), and on success
`getLastEntityCount()` equals the triangle count of the returned mesh. -/
theorem c8_counter_matches_mesh (lines : List String) (fsp : Bool) :
    initScan.count = 0 ∧
    (∀ st i, ((scanStep lines fsp st i).1.count = st.count ∧
        (scanStep lines fsp st i).1.mesh = st.mesh) ∨
      (∃ t, (scanStep lines fsp st i).1.count = st.count + 1 ∧
        (scanStep lines fsp st i).1.mesh = st.mesh ++ [t])) ∧
    (∀ m c, (parseFileModel lines fsp).result = ParseResult.ok m c →
      c = m.length) := by
  refine ⟨rfl, fun st i => scanStep_mesh_count lines fsp st i, ?_⟩
  intro m c hmc
  have h := scanLoopF_count_inv lines fsp (lines.length + 1) initScan 0 rfl
  by_cases hm : (scanLoopF (lines.length + 1) lines fsp initScan 0).mesh = []
  · simp [parseFileModel, List.isEmpty_iff, hm] at hmc
  · simp only [parseFileModel, List.isEmpty_iff] at hmc
    rw [if_neg hm] at hmc
    simp only [ParseResult.ok.injEq] at hmc
    rw [← hmc.1, ← hmc.2]
    exact h

/-- Witness for C8: a file with two valid 3DFACE entities yields triangle
count 2 and entity count 2. -/
theorem c8_witness :
    (parseFileModel sampleTwoFace true).result = ParseResult.ok sampleTwoMesh 2 ∧
    2 = sampleTwoMesh.length :=
  ⟨by decide, (c8_counter_matches_mesh sampleTwoFace true).2.2 sampleTwoMesh 2 (by decide)⟩

/-- The outcome of the face parser is the triangle of the three buffered
vertices when all three slots are populated, and nothing otherwise. -/
lemma parse3DFace_shape (lines : List String) (index : Nat) :
    (parse3DFaceFromLines lines index).1 =
      (if (faceLoopF (lines.length + 1) lines initFace index).2.has0 &&
          (faceLoopF (lines.length + 1) lines initFace index).2.has1 &&
          (faceLoopF (lines.length + 1) lines initFace index).2.has2 then
        some ⟨(faceLoopF (lines.length + 1) lines initFace index).2.v0,
              (faceLoopF (lines.length + 1) lines initFace index).2.v1,
              (faceLoopF (lines.length + 1) lines initFace index).2.v2⟩
      else none) := by
  unfold parse3DFaceFromLines
  by_cases hb : ((faceLoopF (lines.length + 1) lines initFace index).2.has0 &&
      (faceLoopF (lines.length + 1) lines initFace index).2.has1 &&
      (faceLoopF (lines.length + 1) lines initFace index).2.has2) = true
  · rw [if_pos hb, if_pos hb]
  · rw [if_neg hb, if_neg hb]

/-- **C1.** The face-parsing subroutine succeeds, yielding the triangle
built from the three buffered vertices in index order, exactly when all
three vertex slots are populated; a slot becomes populated exactly when
the value paired with its x group code (10, 11, 12) parses as a
floating-point number; on failure the caller adds no triangle. -/
theorem c1_face_success_iff (lines : List String) (index : Nat) :
    (∀ (st : FaceState) (code : Int) (value : String),
      (((applyPair st code value).has0 = true) ↔
        (st.has0 = true ∨ (code = 10 ∧ (stod value).isSome = true))) ∧
      (((applyPair st code value).has1 = true) ↔
        (st.has1 = true ∨ (code = 11 ∧ (stod value).isSome = true))) ∧
      (((applyPair st code value).has2 = true) ↔
        (st.has2 = true ∨ (code = 12 ∧ (stod value).isSome = true)))) ∧
    ((parse3DFaceFromLines lines index).1 =
      (if (faceLoopF (lines.length + 1) lines initFace index).2.has0 &&
          (faceLoopF (lines.length + 1) lines initFace index).2.has1 &&
          (faceLoopF (lines.length + 1) lines initFace index).2.has2 then
        some ⟨(faceLoopF (lines.length + 1) lines initFace index).2.v0,
              (faceLoopF (lines.length + 1) lines initFace index).2.v1,
              (faceLoopF (lines.length + 1) lines initFace index).2.v2⟩
      else none)) ∧
    (∀ (fsp : Bool) (st : ScanState) (i : Nat),
      st.inEntities = true → lines.getD i "" = "0" → i + 1 < lines.length →
      lines.getD (i + 1) "" = "3DFACE" →
      (parse3DFaceFromLines lines (i + 2)).1 = none →
      (scanStep lines fsp st i).1.mesh = st.mesh ∧
      (scanStep lines fsp st i).1.count = st.count) := by
  refine ⟨?_, ?_, ?_⟩
  · intro st code value
    rcases hsd : stod value with _ | v <;>
    · by_cases h10 : code = 10
      · subst h10; simp [applyPair, FaceState.putX, hsd]
      · by_cases h11 : code = 11
        · subst h11; simp [applyPair, FaceState.putX, hsd]
        · by_cases h12 : code = 12
          · subst h12; simp [applyPair, FaceState.putX, hsd]
          · by_cases h20 : code = 20 ∨ code = 21 ∨ code = 22
            · rcases h20 with h | h | h <;> subst h <;>
                simp [applyPair, FaceState.putY, hsd]
            · by_cases h30 : code = 30 ∨ code = 31 ∨ code = 32
              · rcases h30 with h | h | h <;> subst h <;>
                  simp [applyPair, FaceState.putZ, hsd]
              · have hx : ¬(code = 10 ∨ code = 11 ∨ code = 12) := by tauto
                simp [applyPair, hx, h20, h30, h10, h11, h12]
  · exact parse3DFace_shape lines index
  · intro fsp st i hin h0 hlt hface hnone
    rcases hp : parse3DFaceFromLines lines (i + 2) with ⟨ot, ni⟩
    rcases ot with _ | tri
    · simp only [scanStep, hp]
      split_ifs <;> exact ⟨rfl, rfl⟩
    · rw [hp] at hnone
      simp at hnone

/-- Witness for C1: an incomplete 3DFACE (only vertex 0 present) fails
and adds nothing to the mesh. -/
theorem c1_witness :
    (parse3DFaceFromLines sampleBadFace 2).1 = none ∧
    (scanStep sampleBadFace false ⟨true, [], 0, []⟩ 0).1.mesh = [] := by
  have h := (c1_face_success_iff sampleBadFace 2).2.2 false ⟨true, [], 0, []⟩ 0
    rfl (by decide) (by decide) (by decide) (by decide)
  exact ⟨by decide, h.1⟩

/-- The section flag after one scan iteration: set exactly by the
`SECTION`/`2`/`ENTITIES` quadruple, cleared exactly by `ENDSEC`, and
otherwise preserved. -/
lemma scanStep_inEntities (lines : List String) (fsp : Bool) (st : ScanState)
    (i : Nat) :
    (scanStep lines fsp st i).1.inEntities = true ↔
      (isEntitiesQuad lines i ∨ (st.inEntities = true ∧ ¬ isEndsecAt lines i)) := by
  simp only [scanStep]
  by_cases h1 : lines.getD i "" = "0" ∧ i + 1 < lines.length
  · rw [if_pos h1]
    by_cases h2 : lines.getD (i + 1) "" = "SECTION" ∧ i + 3 < lines.length
    · rw [if_pos h2]
      by_cases h3 : lines.getD (i + 2) "" = "2" ∧ lines.getD (i + 3) "" = "ENTITIES"
      · rw [if_pos h3]
        exact ⟨fun _ => Or.inl ⟨h1.1, h1.2, h2.1, h2.2, h3.1, h3.2⟩, fun _ => rfl⟩
      · rw [if_neg h3]
        exact ⟨fun h => Or.inr ⟨h, fun he => (by decide : ¬("SECTION" = "ENDSEC"))
            (h2.1.symm.trans he.2.2)⟩,
          fun h => h.elim
            (fun hq => absurd ⟨hq.2.2.2.2.1, hq.2.2.2.2.2⟩ h3) (fun hh => hh.1)⟩
    · rw [if_neg h2]
      by_cases h4 : lines.getD (i + 1) "" = "ENDSEC"
      · rw [if_pos h4]
        constructor
        · intro h
          simp at h
        · intro h
          refine h.elim (fun hq => ?_) (fun hh => ?_)
          · exact absurd ⟨hq.2.2.1, hq.2.2.2.1⟩ h2
          · exact absurd ⟨h1.1, h1.2, h4⟩ hh.2
      · rw [if_neg h4]
        by_cases h5 : st.inEntities = true ∧ lines.getD (i + 1) "" = "3DFACE"
        · rw [if_pos h5]
          rcases hp : parse3DFaceFromLines lines (i + 2) with ⟨ot, ni⟩
          rcases ot with _ | tri
          · exact ⟨fun h => Or.inr ⟨h, fun he => h4 he.2.2⟩,
              fun h => h.elim (fun hq => absurd ⟨hq.2.2.1, hq.2.2.2.1⟩ h2)
                (fun hh => hh.1)⟩
          · split_ifs with h6 <;>
              exact ⟨fun h => Or.inr ⟨h, fun he => h4 he.2.2⟩,
                fun h => h.elim (fun hq => absurd ⟨hq.2.2.1, hq.2.2.2.1⟩ h2)
                  (fun hh => hh.1)⟩
        · rw [if_neg h5]
          exact ⟨fun h => Or.inr ⟨h, fun he => h4 he.2.2⟩,
            fun h => h.elim (fun hq => absurd ⟨hq.2.2.1, hq.2.2.2.1⟩ h2)
              (fun hh => hh.1)⟩
  · rw [if_neg h1]
    exact ⟨fun h => Or.inr ⟨h, fun he => h1 ⟨he.1, he.2.1⟩⟩,
      fun h => h.elim (fun hq => absurd ⟨hq.1, hq.2.1⟩ h1) (fun hh => hh.1)⟩

/-- A 3DFACE marker seen while outside the ENTITIES section is a no-op on
the scan state. -/
lemma scanStep_outside_3dface (lines : List String) (fsp : Bool) (st : ScanState)
    (i : Nat) (hin : st.inEntities = false) (h0 : lines.getD i "" = "0")
    (hface : lines.getD (i + 1) "" = "3DFACE") :
    (scanStep lines fsp st i).1 = st := by
  simp only [scanStep]
  by_cases hlt : i + 1 < lines.length
  · rw [if_pos ⟨h0, hlt⟩]
    rw [if_neg (fun hc : _ ∧ _ => (by decide : ¬("3DFACE" = "SECTION"))
      (hface.symm.trans hc.1))]
    rw [if_neg (fun hc : _ = "ENDSEC" => (by decide : ¬("3DFACE" = "ENDSEC"))
      (hface.symm.trans hc))]
    rw [if_neg (fun hc : _ ∧ _ => (by decide : ¬(false = true))
      (hin.symm.trans hc.1))]
  · rw [if_neg (fun hc : _ ∧ _ => hlt hc.2)]

/-- **C2.** The section flag starts false, becomes true exactly on a
`SECTION`/`2`/`ENTITIES` quadruple, is cleared on `ENDSEC`, and a 3DFACE
marker seen while the flag is false leaves the scan state unchanged. -/
theorem c2_section_state_machine (lines : List String) (fsp : Bool)
    (st : ScanState) (i : Nat) :
    initScan.inEntities = false ∧
    ((scanStep lines fsp st i).1.inEntities = true ↔
      (isEntitiesQuad lines i ∨ (st.inEntities = true ∧ ¬ isEndsecAt lines i))) ∧
    (st.inEntities = false → lines.getD i "" = "0" →
      lines.getD (i + 1) "" = "3DFACE" → (scanStep lines fsp st i).1 = st) :=
  ⟨rfl, scanStep_inEntities lines fsp st i,
    fun hin h0 hface => scanStep_outside_3dface lines fsp st i hin h0 hface⟩

/-- Witness for C2: a 3DFACE marker outside any ENTITIES section is
ignored. -/
theorem c2_witness :
    (scanStep ["0", "3DFACE", "10", "1", "0", "Q"] false initScan 0).1 = initScan :=
  (c2_section_state_machine ["0", "3DFACE", "10", "1", "0", "Q"] false initScan 0).2.2
    rfl (by decide) (by decide)

/-- **C4.** Inside the face parser, a line that fails integer parsing
advances the cursor by exactly one and scanning continues; a value line
that fails float parsing zeroes the affected coordinate instead of
aborting; neither failure ends the scan or surfaces an error. -/
theorem c4_local_recovery (fuel : Nat) (lines : List String) (st : FaceState)
    (i : Nat) (v : String) :
    (i < lines.length → lines.getD i "" ≠ "0" → stoi (lines.getD i "") = none →
      faceLoopF (fuel + 1) lines st i = faceLoopF fuel lines st (i + 1)) ∧
    (stod v = none →
      applyPair st 10 v = { st with v0 := { st.v0 with x := 0 } } ∧
      applyPair st 11 v = { st with v1 := { st.v1 with x := 0 } } ∧
      applyPair st 12 v = { st with v2 := { st.v2 with x := 0 } } ∧
      applyPair st 20 v = { st with v0 := { st.v0 with y := 0 } } ∧
      applyPair st 21 v = { st with v1 := { st.v1 with y := 0 } } ∧
      applyPair st 22 v = { st with v2 := { st.v2 with y := 0 } } ∧
      applyPair st 30 v = { st with v0 := { st.v0 with z := 0 } } ∧
      applyPair st 31 v = { st with v1 := { st.v1 with z := 0 } } ∧
      applyPair st 32 v = { st with v2 := { st.v2 with z := 0 } }) := by
  constructor
  · intro hlt h0 hstoi
    simp only [faceLoopF, if_pos hlt]
    rw [if_neg h0, hstoi]
  · intro hv
    obtain ⟨⟨ax, ay, az⟩, ⟨bx, by', bz⟩, ⟨cx, cy, cz⟩, d, e, f⟩ := st
    refine ⟨?_, ?_, ?_, ?_, ?_, ?_, ?_, ?_, ?_⟩ <;>
      simp [applyPair, FaceState.putX, FaceState.putY, FaceState.putZ, hv]

/-- Witness for C4: a stray non-numeric line is skipped by one, and a bad
float value zeroes the coordinate. -/
theorem c4_witness :
    faceLoopF 2 ["zz", "0"] initFace 0 = faceLoopF 1 ["zz", "0"] initFace 1 ∧
    applyPair initFace 10 "oops" =
      { initFace with v0 := { initFace.v0 with x := 0 } } :=
  ⟨(c4_local_recovery 1 ["zz", "0"] initFace 0 "oops").1 (by decide) (by decide)
      (by decide),
   ((c4_local_recovery 1 ["zz", "0"] initFace 0 "oops").2 (by decide)).1⟩

/-- **C6.** Fourth-vertex group codes 13/23/33 are consumed as code/value
pairs (the cursor advances past both lines) but never touch the 3-vertex
buffer, and the emitted triangle is built solely from vertices 0, 1, 2. -/
theorem c6_fourth_vertex_ignored (fuel : Nat) (lines : List String)
    (st : FaceState) (i : Nat) (v : String) (index : Nat) :
    (applyPair st 13 v = st ∧ applyPair st 23 v = st ∧ applyPair st 33 v = st) ∧
    (i < lines.length → lines.getD i "" ≠ "0" →
      (stoi (lines.getD i "") = some 13 ∨ stoi (lines.getD i "") = some 23 ∨
        stoi (lines.getD i "") = some 33) →
      i + 1 < lines.length →
      faceLoopF (fuel + 1) lines st i = faceLoopF fuel lines st (i + 2)) ∧
    ((parse3DFaceFromLines lines index).1 =
      (if (faceLoopF (lines.length + 1) lines initFace index).2.has0 &&
          (faceLoopF (lines.length + 1) lines initFace index).2.has1 &&
          (faceLoopF (lines.length + 1) lines initFace index).2.has2 then
        some ⟨(faceLoopF (lines.length + 1) lines initFace index).2.v0,
              (faceLoopF (lines.length + 1) lines initFace index).2.v1,
              (faceLoopF (lines.length + 1) lines initFace index).2.v2⟩
      else none)) := by
  have happ : ∀ (c : Int), c = 13 ∨ c = 23 ∨ c = 33 → ∀ w, applyPair st c w = st := by
    intro c hc w
    rcases hc with h | h | h <;> subst h <;> norm_num [applyPair]
  refine ⟨⟨happ 13 (by norm_num) v, happ 23 (by norm_num) v, happ 33 (by norm_num) v⟩,
    ?_, parse3DFace_shape lines index⟩
  intro hlt h0 hcode hlt1
  simp only [faceLoopF, if_pos hlt]
  rw [if_neg h0]
  rcases hcode with h | h | h <;> rw [h] <;> simp only [if_pos hlt1] <;>
    rw [happ _ (by norm_num)]

/-- Witness for C6: a 13/value pair is consumed whole and leaves the
vertex buffer untouched. -/
theorem c6_witness :
    faceLoopF 2 ["13", "7", "0"] initFace 0 = faceLoopF 1 ["13", "7", "0"] initFace 2 ∧
    applyPair initFace 13 "7" = initFace := by
  have h := c6_fourth_vertex_ignored 1 ["13", "7", "0"] initFace 0 "7" 0
  exact ⟨h.2.1 (by decide) (by decide) (Or.inl (by decide)) (by decide), h.1.1⟩

/-- The face-parsing loop never moves its index backwards. -/
lemma faceLoopF_index_le :
    ∀ (fuel : Nat) (lines : List String) (st : FaceState) (i : Nat),
      i ≤ (faceLoopF fuel lines st i).1 := by
  intro fuel
  induction fuel with
  | zero => intro lines st i; exact le_rfl
  | succ n ih =>
    intro lines st i
    simp only [faceLoopF]
    split
    · split
      · exact le_rfl
      · split
        · exact le_trans (Nat.le_succ i) (ih lines st (i + 1))
        · split
          · exact le_trans (by omega) (ih lines _ (i + 2))
          · exact le_rfl
    · exact le_rfl

/-- The index returned by the face parser is the loop's final index. -/
lemma parse3DFace_idx (lines : List String) (index : Nat) :
    (parse3DFaceFromLines lines index).2 =
      (faceLoopF (lines.length + 1) lines initFace index).1 := by
  unfold parse3DFaceFromLines
  by_cases hb : ((faceLoopF (lines.length + 1) lines initFace index).2.has0 &&
      (faceLoopF (lines.length + 1) lines initFace index).2.has1 &&
      (faceLoopF (lines.length + 1) lines initFace index).2.has2) = true
  · rw [if_pos hb]
  · rw [if_neg hb]

/-- Every outer scan iteration strictly advances the cursor. -/
lemma scanStep_cursor_lt (lines : List String) (fsp : Bool) (st : ScanState)
    (i : Nat) : i < (scanStep lines fsp st i).2 := by
  have h2 : i + 2 ≤ (parse3DFaceFromLines lines (i + 2)).2 := by
    rw [parse3DFace_idx]
    exact faceLoopF_index_le (lines.length + 1) lines initFace (i + 2)
  rcases hp : parse3DFaceFromLines lines (i + 2) with ⟨ot, ni⟩
  rw [hp] at h2
  simp only at h2
  rcases ot with _ | tri <;> simp only [scanStep, hp] <;> split_ifs <;> simp <;> omega

/-- With enough fuel the scan loop's value is fuel-independent: the loop
genuinely terminates once the cursor exhausts the line array. -/
lemma scanLoopF_congr (lines : List String) (fsp : Bool) :
    ∀ (n i : Nat) (st : ScanState) (fuel fuel' : Nat),
      lines.length - i ≤ n → lines.length - i < fuel → lines.length - i < fuel' →
      scanLoopF fuel lines fsp st i = scanLoopF fuel' lines fsp st i := by
  intro n
  induction n with
  | zero =>
    intro i st fuel fuel' hn hf hf'
    obtain ⟨f, rfl⟩ : ∃ f, fuel = f + 1 := ⟨fuel - 1, by omega⟩
    obtain ⟨f', rfl⟩ : ∃ f', fuel' = f' + 1 := ⟨fuel' - 1, by omega⟩
    have hi : ¬ i < lines.length := by omega
    simp only [scanLoopF, if_neg hi]
  | succ m ih =>
    intro i st fuel fuel' hn hf hf'
    obtain ⟨f, rfl⟩ : ∃ f, fuel = f + 1 := ⟨fuel - 1, by omega⟩
    obtain ⟨f', rfl⟩ : ∃ f', fuel' = f' + 1 := ⟨fuel' - 1, by omega⟩
    by_cases hi : i < lines.length
    · simp only [scanLoopF, if_pos hi]
      have hlt := scanStep_cursor_lt lines fsp st i
      exact ih (scanStep lines fsp st i).2 (scanStep lines fsp st i).1 f f'
        (by omega) (by omega) (by omega)
    · simp only [scanLoopF, if_neg hi]

/-- **C7.** Scanning terminates on every finite line array: the face
parser never decreases its index, the outer cursor strictly increases on
every iteration, parsing ends when the cursor exhausts the lines, and the
scan value stabilizes once the fuel exceeds the remaining lines. -/
theorem c7_scan_terminates (fuel : Nat) (lines : List String) (fsp : Bool)
    (sst : ScanState) (fst : FaceState) (i j : Nat) :
    i ≤ (faceLoopF fuel lines fst i).1 ∧
    (j < lines.length → j < (scanStep lines fsp sst j).2) ∧
    (lines.length ≤ j → scanLoopF (fuel + 1) lines fsp sst j = sst) ∧
    (lines.length - j < fuel →
      scanLoopF fuel lines fsp sst j = scanLoopF (lines.length + 1) lines fsp sst j) := by
  refine ⟨faceLoopF_index_le fuel lines fst i,
    fun _ => scanStep_cursor_lt lines fsp sst j, fun hje => ?_, fun hf => ?_⟩
  · simp only [scanLoopF, if_neg (by omega : ¬ j < lines.length)]
  · exact scanLoopF_congr lines fsp (lines.length - j) j sst fuel (lines.length + 1)
      le_rfl hf (by omega)

/-- Witness for C7 at concrete inputs. -/
theorem c7_witness :
    0 < (scanStep ["a"] false initScan 0).2 ∧
    scanLoopF 2 ["a"] false initScan 1 = initScan ∧
    scanLoopF 5 ["a"] false initScan 0 = scanLoopF 2 ["a"] false initScan 0 :=
  ⟨(c7_scan_terminates 5 ["a"] false initScan initFace 0 0).2.1 (by decide),
   (c7_scan_terminates 1 ["a"] false initScan initFace 0 1).2.2.1 (by decide),
   (c7_scan_terminates 5 ["a"] false initScan initFace 0 0).2.2.2 (by decide)⟩

/-- A clamped progress value is nonnegative. -/
lemma clampQ_nonneg (p : ℚ) : 0 ≤ clampQ p := le_max_left 0 _

/-- A clamped progress value is at most one. -/
lemma clampQ_le_one (p : ℚ) : clampQ p ≤ 1 := max_le (by norm_num) (min_le_left 1 p)

/-- Clamping is monotone. -/
lemma clampQ_mono {p q : ℚ} (h : p ≤ q) : clampQ p ≤ clampQ q :=
  max_le_max le_rfl (min_le_min le_rfl h)

/-- The one is its own clamp. -/
lemma clampQ_one : clampQ 1 = (1 : ℚ) := by
  unfold clampQ
  rw [min_self, max_eq_right]
  norm_num

/-- The progress ratio is monotone in the cursor. -/
lemma ratio_mono (len : Nat) {a b : Nat} (h : a ≤ b) :
    qDiv (a : ℚ) (len : ℚ) ≤ qDiv (b : ℚ) (len : ℚ) := by
  rw [qDiv_eq, qDiv_eq]
  exact div_le_div_of_nonneg_right (by exact_mod_cast h) (Nat.cast_nonneg len)

/-- An element of a list's `getLast?` is an element of the list. -/
lemma mem_of_getLast? {α : Type} {l : List α} {a : α} (h : a ∈ l.getLast?) :
    a ∈ l := by
  rcases List.mem_getLast?_eq_getLast h with ⟨hne, rfl⟩
  exact List.getLast_mem hne

/-- Each scan iteration either reports nothing or appends the clamped
ratio of the new cursor over the line count. -/
lemma scanStep_progress (lines : List String) (fsp : Bool) (st : ScanState)
    (i : Nat) :
    (scanStep lines fsp st i).1.progress = st.progress ∨
      (scanStep lines fsp st i).1.progress = st.progress ++
        [clampQ (qDiv (((scanStep lines fsp st i).2 : Nat) : ℚ) (lines.length : ℚ))] := by
  rcases hp : parse3DFaceFromLines lines (i + 2) with ⟨ot, ni⟩
  rcases ot with _ | tri <;> simp only [scanStep, hp] <;> split_ifs <;>
    first
      | exact Or.inl rfl
      | exact Or.inr rfl

/-- Invariant of the scan loop: the reported progress sequence is a
nondecreasing chain of values in [0, 1] bounded by the clamped current
ratio. -/
lemma scanLoopF_progress_inv (lines : List String) (fsp : Bool) :
    ∀ (fuel i : Nat) (st : ScanState),
      List.Chain' (· ≤ ·) st.progress →
      (∀ x ∈ st.progress,
        0 ≤ x ∧ x ≤ 1 ∧ x ≤ clampQ (qDiv (i : ℚ) (lines.length : ℚ))) →
      List.Chain' (· ≤ ·) (scanLoopF fuel lines fsp st i).progress ∧
      ∀ x ∈ (scanLoopF fuel lines fsp st i).progress, 0 ≤ x ∧ x ≤ 1 := by
  intro fuel
  induction fuel with
  | zero =>
    intro i st hchain hbound
    exact ⟨hchain, fun x hx => ⟨(hbound x hx).1, (hbound x hx).2.1⟩⟩
  | succ n ih =>
    intro i st hchain hbound
    by_cases hi : i < lines.length
    · simp only [scanLoopF, if_pos hi]
      have hcur : i ≤ (scanStep lines fsp st i).2 :=
        le_of_lt (scanStep_cursor_lt lines fsp st i)
      have hmono : clampQ (qDiv (i : ℚ) (lines.length : ℚ)) ≤
          clampQ (qDiv (((scanStep lines fsp st i).2 : Nat) : ℚ) (lines.length : ℚ)) :=
        clampQ_mono (ratio_mono lines.length hcur)
      rcases scanStep_progress lines fsp st i with hpr | hpr
      · apply ih (scanStep lines fsp st i).2 (scanStep lines fsp st i).1
        · rw [hpr]
          exact hchain
        · rw [hpr]
          intro x hx
          obtain ⟨hx0, hx1, hxc⟩ := hbound x hx
          exact ⟨hx0, hx1, le_trans hxc hmono⟩
      · apply ih (scanStep lines fsp st i).2 (scanStep lines fsp st i).1
        · rw [hpr]
          apply List.Chain'.append hchain (List.chain'_singleton _)
          intro a ha b hb
          have hamem : a ∈ st.progress := mem_of_getLast? ha
          have hbv : clampQ (qDiv (((scanStep lines fsp st i).2 : Nat) : ℚ)
              (lines.length : ℚ)) = b := by
            simpa using hb
          rw [← hbv]
          exact le_trans (hbound a hamem).2.2 hmono
        · rw [hpr]
          intro x hx
          rcases List.mem_append.mp hx with hx | hx
          · obtain ⟨hx0, hx1, hxc⟩ := hbound x hx
            exact ⟨hx0, hx1, le_trans hxc hmono⟩
          · have hxv : x =
                clampQ (qDiv (((scanStep lines fsp st i).2 : Nat) : ℚ)
                  (lines.length : ℚ)) := by
              simpa using hx
            rw [hxv]
            exact ⟨clampQ_nonneg _, clampQ_le_one _, le_rfl⟩
    · simp only [scanLoopF, if_neg hi]
      exact ⟨hchain, fun x hx => ⟨(hbound x hx).1, (hbound x hx).2.1⟩⟩

/-- The reported progress of a parse is the loop's reports followed by
the final unconditional 1.0. -/
lemma parseFileModel_progress (lines : List String) (fsp : Bool) :
    (parseFileModel lines fsp).progress =
      (scanLoopF (lines.length + 1) lines fsp initScan 0).progress ++ [clampQ 1] := by
  unfold parseFileModel
  by_cases h : (scanLoopF (lines.length + 1) lines fsp initScan 0).mesh.isEmpty = true
  · rw [if_pos h]
  · rw [if_neg h]

/-- **C5.** Across a single parse the values passed to the progress
callback are monotonically nondecreasing, all lie in [0, 1], and the last
reported value is exactly 1 — also when the parse ends in
`NoEntitiesFound`. -/
theorem c5_progress_monotone (lines : List String) (fsp : Bool) :
    List.Chain' (· ≤ ·) (parseFileModel lines fsp).progress ∧
    (∀ x ∈ (parseFileModel lines fsp).progress, 0 ≤ x ∧ x ≤ 1) ∧
    (parseFileModel lines fsp).progress.getLast? = some 1 := by
  have hinv := scanLoopF_progress_inv lines fsp (lines.length + 1) 0 initScan
    List.chain'_nil (fun x hx => absurd hx (List.not_mem_nil x))
  rw [parseFileModel_progress, clampQ_one]
  refine ⟨?_, ?_, ?_⟩
  · apply List.Chain'.append hinv.1 (List.chain'_singleton 1)
    intro a ha b hb
    have hamem := mem_of_getLast? ha
    have hb1 : (1 : ℚ) = b := by simpa using hb
    rw [← hb1]
    exact (hinv.2 a hamem).2
  · intro x hx
    rcases List.mem_append.mp hx with hx | hx
    · exact hinv.2 x hx
    · have hx1 : x = 1 := by simpa using hx
      rw [hx1]
      norm_num
  · exact List.getLast?_concat _

/-- Witness for C5: on the empty file the only report is the final 1. -/
theorem c5_witness :
    (parseFileModel [] false).progress.getLast? = some 1 ∧
    (0 ≤ (1 : ℚ) ∧ (1 : ℚ) ≤ 1) :=
  ⟨(c5_progress_monotone [] false).2.2,
   (c5_progress_monotone [] false).2.1 1 (by decide)⟩

end DXF
